import Mathlib

/-!
Shallow embedding of the vehicle-listings ingestion pipeline of `src/app.py`
(`VehicleListingProcessor`, `CacheManager`, `APIClient`, `fetch_listings`)
together with proofs about the specification's claims.

Modelling conventions:
* Python/JSON values are the inductive `PyVal` (dicts are association lists
  with string keys, as produced by `json.load`).
* Python `float` is modelled by exact rationals (`Rat`); binary rounding of
  doubles is not modelled.  `float("inf")`-style literals are unreachable in
  this program and are not modelled.
* Python exceptions are modelled with `Except PyErr`; a `deriving`-free total
  Lean function models Python code that cannot raise.
* `time.time()` is passed in explicitly as `now : Rat`.  The timestamp of a
  naive datetime is computed as if the local timezone were UTC (no claim
  depends on the local timezone).
* String predicates (`isdigit`, `upper`, whitespace) are modelled on ASCII.
-/

namespace App

/-- Python exception classes that the embedded code can raise or catch. -/
inductive PyErr where
  | typeError
  | valueError
  | attributeError
  | keyError
  | indexError
deriving DecidableEq, Repr

/-- A Python/JSON value as produced by `json.load` / `response.json()`. -/
inductive PyVal where
  | none
  | bool (b : Bool)
  | int (n : Int)
  | float (q : Rat)
  | str (s : String)
  | list (xs : List PyVal)
  | dict (kvs : List (String × PyVal))

/-- Python truthiness (`bool(v)`): `None`, `False`, `0`, `0.0`, `""`, `[]`,
`{}` are falsy, everything else truthy. -/
def pyTruthy : PyVal → Bool
  | .none => false
  | .bool b => b
  | .int n => n != 0
  | .float q => q != 0
  | .str s => s != ""
  | .list xs => !xs.isEmpty
  | .dict kvs => !kvs.isEmpty

/-- `d.get(k, default)` on a JSON object modelled as an association list. -/
def pyGet (kvs : List (String × PyVal)) (k : String) (dflt : PyVal) : PyVal :=
  match kvs.find? (fun p => p.1 == k) with
  | some p => p.2
  | Option.none => dflt

/-- ASCII whitespace characters stripped by `str.strip()` / `float()`. -/
def pyIsSpace (c : Char) : Bool :=
  c = ' ' || c = '\t' || c = '\n' || c = '\r' || c = '\x0b' || c = '\x0c'

/-- Python `str.strip()` on the character list of a string (ASCII whitespace). -/
def pyStrip (l : List Char) : List Char :=
  ((l.dropWhile pyIsSpace).reverse.dropWhile pyIsSpace).reverse

/-- Python `str.split(sep)` with a one-character separator: empty segments
are kept, `"".split(c) = [""]`. -/
def pySplit (sep : Char) : List Char → List (List Char)
  | [] => [[]]
  | c :: rest =>
    let r := pySplit sep rest
    if c = sep then [] :: r
    else
      match r with
      | [] => [[c]]
      | h :: t => (c :: h) :: t

/-- Python `str.upper()` (ASCII). -/
def pyUpper (s : String) : String := String.mk (s.data.map Char.toUpper)

/-- Python `str.lower()` (ASCII). -/
def pyLower (s : String) : String := String.mk (s.data.map Char.toLower)

/-- One step of Python `str.title()`: a cased character is uppercased when the
previous character was not cased, lowercased otherwise (ASCII). -/
def pyTitleGo : Bool → List Char → List Char
  | _, [] => []
  | prevAlpha, c :: rest =>
    (if c.isAlpha then (if prevAlpha then c.toLower else c.toUpper) else c)
      :: pyTitleGo c.isAlpha rest

/-- Python `str.title()` (ASCII). -/
def pyTitle (s : String) : String := String.mk (pyTitleGo false s.data)

/-- Single-character `str.replace(a, b)` (used as `.replace(',', ' ')`). -/
def pyReplaceChar (a b : Char) (l : List Char) : List Char :=
  l.map (fun c => if c = a then b else c)

/-- Numeric value of a list of ASCII decimal digits (most significant first). -/
def digitsVal (ds : List Char) : Nat :=
  ds.foldl (fun acc c => acc * 10 + (c.toNat - 48)) 0

/-- Fuel-driven worker for `natDigits` (structural, so that it reduces). -/
def natDigitsF : Nat → Nat → List Char
  | 0, _ => []
  | fuel + 1, n =>
    if n < 10 then [Nat.digitChar n]
    else natDigitsF fuel (n / 10) ++ [Nat.digitChar (n % 10)]

/-- Decimal digit characters of a natural number, most significant first
(the digits of Python's `repr` of a nonnegative int). -/
def natDigits (n : Nat) : List Char := natDigitsF (n + 1) n

/-- Fuel-driven worker for `group3` (structural, so that it reduces). -/
def group3F (sep : Char) : Nat → List Char → List Char
  | 0, l => l
  | fuel + 1, l =>
    if l.length ≤ 3 then l
    else l.take 3 ++ sep :: group3F sep fuel (l.drop 3)

/-- Group a reversed digit list into blocks of three separated by `sep`
(the grouping of Python's `format(n, ',')`, built least-significant-first). -/
def group3 (sep : Char) (l : List Char) : List Char := group3F sep l.length l

/-- Python `f"{n:,}"` for an integer: decimal digits grouped by `sep`
every three, with a leading minus sign for negatives.  `app.py` always
follows it with `.replace(',', ' ')`. -/
def pyGroupInt (sep : Char) (i : Int) : List Char :=
  let ds := (group3 sep (natDigits i.natAbs).reverse).reverse
  if i < 0 then '-' :: ds else ds

/-- Round half to even, the rounding of Python's `f"{x:,.0f}"`. -/
def roundHalfEven (q : Rat) : Int :=
  let f := ⌊q⌋
  let r := q - f
  if r < 1/2 then f
  else if 1/2 < r then f + 1
  else if f % 2 = 0 then f else f + 1

/-- Python `f"{x:,.0f}"` for a float `x`: round half to even, group the
digits of the magnitude by `sep`, and prefix a minus sign whenever the
float being formatted is negative — including the signed zero: for
`x ∈ [-0.5, 0)` the rounded double is `-0.0` and Python prints `"-0"`,
so the sign comes from `x`, not from the rounded integer. -/
def pyGroupNoFrac (sep : Char) (q : Rat) : List Char :=
  let ds := (group3 sep (natDigits (roundHalfEven q).natAbs).reverse).reverse
  if q < 0 then '-' :: ds else ds

/-- Truncation toward zero, the conversion of Python's `int(float)`. -/
def ratTrunc (q : Rat) : Int := if 0 ≤ q then ⌊q⌋ else ⌈q⌉

/-- Continue a digit run already begun by a digit: further digits, with a
single underscore allowed only when a digit follows it (PEP 515 allows
underscores only between digits).  Returns the digits read (underscores
removed) and the unread remainder. -/
def digitsUGo : List Char → (List Char × List Char)
  | [] => ([], [])
  | c :: rest =>
    if c.isDigit then
      let (a, b) := digitsUGo rest
      (c :: a, b)
    else if c = '_' then
      match rest with
      | [] => ([], ['_'])
      | d :: rest2 =>
        if d.isDigit then
          let (a, b) := digitsUGo rest2
          (d :: a, b)
        else ([], '_' :: d :: rest2)
    else ([], c :: rest)

/-- Greedily read a run of decimal digits in a Python numeric literal: the
run must start with a digit (a leading underscore is not part of a run —
PEP 515 allows underscores only between digits, so `float("1._5")` and
`int("_5")` raise); returns the digits with underscores removed and the
unread remainder. -/
def digitsU (l : List Char) : List Char × List Char :=
  match l with
  | [] => ([], [])
  | c :: rest =>
    if c.isDigit then
      let (a, b) := digitsUGo rest
      (c :: a, b)
    else ([], l)

/-- Sign prefix of a Python numeric literal: `(sign, remainder)`. -/
def pySign : List Char → (Bool × List Char)
  | '+' :: rest => (false, rest)
  | '-' :: rest => (true, rest)
  | l => (false, l)

/-- Exponent suffix `e±ddd` of a Python float literal, if the remainder is
exactly such a suffix (or empty). -/
def pyFloatExp : List Char → Option Int
  | [] => some 0
  | e :: rest =>
    if e = 'e' ∨ e = 'E' then
      let (neg, rest1) := pySign rest
      match digitsU rest1 with
      | (ds, []) =>
        if ds.isEmpty then Option.none
        else some (if neg then -(digitsVal ds : Int) else (digitsVal ds : Int))
      | _ => Option.none
    else Option.none

/-- Python `float(s)` on a string: optional surrounding whitespace, optional
sign, `ddd[.ddd][e±ddd]` with at least one mantissa digit.  The value is
exact (`Rat`); `inf` / `nan` literals are unreachable in this program and
rejected. -/
def pyFloat (s : String) : Option Rat :=
  let l := pyStrip s.data
  let (neg, l1) := pySign l
  let (intDs, l2) := digitsU l1
  let (fracDs, l3) :=
    match l2 with
    | '.' :: rest => digitsU rest
    | _ => ([], l2)
  if intDs.isEmpty ∧ fracDs.isEmpty then Option.none
  else
    match pyFloatExp l3 with
    | Option.none => Option.none
    | some e =>
      let mantissa : Rat :=
        (digitsVal intDs : Rat) + (digitsVal fracDs : Rat) / ((10 : Rat) ^ fracDs.length)
      let signed := if neg then -mantissa else mantissa
      some (if 0 ≤ e then signed * (10 : Rat) ^ e.natAbs else signed / (10 : Rat) ^ e.natAbs)

/-- Python `int(s)` on a string: optional surrounding whitespace, optional
sign, digits (single underscores allowed between digits). -/
def pyIntOfString (s : String) : Option Int :=
  let l := pyStrip s.data
  let (neg, l1) := pySign l
  match digitsU l1 with
  | (ds, []) =>
    if ds.isEmpty then Option.none
    else some (if neg then -(digitsVal ds : Int) else (digitsVal ds : Int))
  | _ => Option.none

/-- A parsed `datetime`: calendar fields plus fractional seconds and an
optional fixed utcoffset in seconds. -/
structure PyDateTime where
  year : Nat
  month : Nat
  day : Nat
  hour : Nat
  minute : Nat
  second : Nat
  frac : Rat
  tzOffset : Option Int
deriving DecidableEq, Repr

/-- Number of days in a month of the proleptic Gregorian calendar. -/
def daysInMonth (y m : Nat) : Nat :=
  if m = 2 then
    if y % 4 = 0 ∧ (y % 100 ≠ 0 ∨ y % 400 = 0) then 29 else 28
  else if m = 4 ∨ m = 6 ∨ m = 9 ∨ m = 11 then 30
  else 31

/-- Days between 1970-01-01 and the given civil date (Gregorian). -/
def daysFromCivil (y m d : Int) : Int :=
  let y1 := if m ≤ 2 then y - 1 else y
  let era := y1 / 400
  let yoe := y1 - era * 400
  let mp := if m > 2 then m - 3 else m + 9
  let doy := (153 * mp + 2) / 5 + d - 1
  let doe := yoe * 365 + yoe / 4 - yoe / 100 + doy
  era * 146097 + doe - 719468

/-- Read exactly two decimal digits. -/
def twoDigits : List Char → Option (Nat × List Char)
  | a :: b :: rest =>
    if a.isDigit ∧ b.isDigit then some (digitsVal [a, b], rest) else Option.none
  | _ => Option.none

/-- Time-of-day part `HH:MM[:SS[.fff[fff]]]` of `datetime.fromisoformat`,
returning `(hour, minute, second, fraction, remainder)`. -/
def parseTimePart (l : List Char) : Option (Nat × Nat × Nat × Rat × List Char) := do
  let (h, l1) ← twoDigits l
  match l1 with
  | ':' :: l2 => do
    let (mi, l3) ← twoDigits l2
    match l3 with
    | ':' :: l4 => do
      let (s, l5) ← twoDigits l4
      match l5 with
      | '.' :: l6 =>
        let ds := l6.takeWhile Char.isDigit
        let rest := l6.dropWhile Char.isDigit
        if ds.length = 3 ∨ ds.length = 6 then
          pure (h, mi, s, (digitsVal ds : Rat) / ((10 : Rat) ^ ds.length), rest)
        else Option.none
      | _ => pure (h, mi, s, 0, l5)
    | _ => pure (h, mi, 0, 0, l3)
  | _ => Option.none

/-- Trailing `±HH:MM` utcoffset of `datetime.fromisoformat` (must consume
the rest of the string); returns the offset in seconds. -/
def parseTzPart : List Char → Option (Option Int)
  | [] => some Option.none
  | c :: rest =>
    if c = '+' ∨ c = '-' then
      match twoDigits rest with
      | some (oh, ':' :: r2) =>
        match twoDigits r2 with
        | some (om, []) =>
          if om < 60 then
            let secs : Int := (oh : Int) * 3600 + (om : Int) * 60
            some (some (if c = '-' then -secs else secs))
          else Option.none
        | _ => Option.none
      | _ => Option.none
    else Option.none

/-- `datetime.fromisoformat`: `YYYY-MM-DD[*HH:MM[:SS[.fff[fff]]]][±HH:MM]`
with a single arbitrary separator character between date and time. -/
def fromisoformat (l : List Char) : Option PyDateTime :=
  match l with
  | y1 :: y2 :: y3 :: y4 :: '-' :: m1 :: m2 :: '-' :: d1 :: d2 :: rest =>
    if (y1.isDigit ∧ y2.isDigit ∧ y3.isDigit ∧ y4.isDigit) ∧
       (m1.isDigit ∧ m2.isDigit) ∧ (d1.isDigit ∧ d2.isDigit) then
      let y := digitsVal [y1, y2, y3, y4]
      let m := digitsVal [m1, m2]
      let d := digitsVal [d1, d2]
      if 1 ≤ y ∧ 1 ≤ m ∧ m ≤ 12 ∧ 1 ≤ d ∧ d ≤ daysInMonth y m then
        match rest with
        | [] => some ⟨y, m, d, 0, 0, 0, 0, Option.none⟩
        | _sep :: timeRest => do
          let (h, mi, sec, frac, rem) ← parseTimePart timeRest
          if h < 24 ∧ mi < 60 ∧ sec < 60 then
            let tz ← parseTzPart rem
            pure ⟨y, m, d, h, mi, sec, frac, tz⟩
          else Option.none
      else Option.none
    else Option.none
  | _ => Option.none

/-- `datetime.timestamp()`: seconds since the Unix epoch.  For a naive
datetime the local timezone is modelled as UTC. -/
def pyTimestamp (dt : PyDateTime) : Rat :=
  let days := daysFromCivil dt.year dt.month dt.day
  let base : Rat :=
    (days : Rat) * 86400 + (dt.hour : Rat) * 3600 + (dt.minute : Rat) * 60 +
      (dt.second : Rat) + dt.frac
  match dt.tzOffset with
  | some off => base - (off : Rat)
  | Option.none => base

/-- The two string rewrites of `parse_iso_datetime` (src/app.py:43-49):
a trailing `Z` becomes `+00:00`, and when the text after the last `+` has
exactly four characters a colon is inserted after its first two. -/
def iso_preprocess (l : List Char) : List Char :=
  let l1 := if l.getLast? = some 'Z' then l.dropLast ++ "+00:00".data else l
  if l1.contains '+' ∧ ((pySplit '+' l1).getLastI).length = 4 then
    let parts := pySplit '+' l1
    parts.headI ++ '+' :: ((parts.getD 1 []).take 2) ++ ':' :: ((parts.getD 1 []).drop 2)
  else l1

/-- `VehicleListingProcessor.parse_iso_datetime` (src/app.py:32-55):
returns a Unix timestamp, degrading every failure to `0`.  The
`except Exception` handler catches both the `AttributeError` of calling
string methods on a non-string and the `ValueError` of
`datetime.fromisoformat`; hence every non-`ok` path returns `0` and the
embedded function is total. -/
def parse_iso_datetime (dt : PyVal) : Rat :=
  if pyTruthy dt = false then 0
  else
    match dt with
    | .str s0 =>
      match fromisoformat (iso_preprocess s0.data) with
      | some d => pyTimestamp d
      | Option.none => 0
    | _ => 0

/-- The sentinel tokens of `format_price` (src/app.py:64). -/
def poaTokens : List String := ["POA", "ON REQUEST", "PRICE ON APPLICATION", ""]

/-- The split of the stripped price string on commas:
`raw_price_str.strip().split(',')` (src/app.py:69-70). -/
def priceParts (s : String) : List (List Char) := pySplit ',' (pyStrip s.data)

/-- `major_digits_only` of the one-comma branch: the digits kept from
left-of-comma, `['0']` when none remain (src/app.py:73-78). -/
def priceMajor (s : String) : List Char :=
  let m := (priceParts s).headI.filter Char.isDigit
  if m.isEmpty then ['0'] else m

/-- `minor_part_str`: the first two right-of-comma characters
(src/app.py:74). -/
def priceMinor (s : String) : List Char := ((priceParts s).getD 1 []).take 2

/-- The `try` body of `format_price` (src/app.py:67-93).  An error carries
the Python exception class together with the values the locals
`price_display` / `price_value_for_sorting` hold at the raise site, since
the handler falls through to `return` with those values. -/
def format_price_body (raw : PyVal) : Except (PyErr × String × Rat) (String × Rat) :=
  match raw with
  | .str s =>
    let parts := priceParts s
    if parts.length = 2 then
      let major_digits_only := priceMajor s
      let minor_part_str := priceMinor s
      let price_float_str := String.mk (major_digits_only ++ '.' :: minor_part_str)
      match pyFloat price_float_str with
      | Option.none => .error (.valueError, "POA", 0)  -- float() raises ValueError
      | some v =>
        -- int(major_digits_only) cannot raise: nonempty ASCII digits
        let major_int : Int := (digitsVal major_digits_only : Int)
        let formatted_major := pyReplaceChar ',' ' ' (pyGroupInt ',' major_int)
        .ok (String.mk ('R' :: formatted_major), v)
    else
      let clean_str := (pyStrip s.data).filter Char.isDigit
      if clean_str.isEmpty then
        .ok ("POA", 0)  -- `if clean_str:` false, locals unchanged
      else
        match pyFloat (String.mk clean_str) with
        | Option.none => .error (.valueError, "POA", 0)
        | some v =>
          let display := pyReplaceChar ',' ' ' ('R' :: pyGroupNoFrac ',' v)
          .ok (String.mk display, v)
  | .int n =>
    let v : Rat := (n : Rat)
    .ok (String.mk (pyReplaceChar ',' ' ' ('R' :: pyGroupNoFrac ',' v)), v)
  | .float q =>
    .ok (String.mk (pyReplaceChar ',' ' ' ('R' :: pyGroupNoFrac ',' q)), q)
  | .bool b =>
    -- isinstance(True, int) holds in Python, so bools take the numeric branch
    let v : Rat := if b then 1 else 0
    .ok (String.mk (pyReplaceChar ',' ' ' ('R' :: pyGroupNoFrac ',' v)), v)
  | _ => .ok ("POA", 0)  -- no isinstance branch matches; locals unchanged

/-- `VehicleListingProcessor.format_price` (src/app.py:57-97): early-out on
falsy values and POA tokens, then the `try` body with
`except (ValueError, IndexError, TypeError)` returning the current locals. -/
def format_price (raw : PyVal) : Except PyErr (String × Rat) :=
  if !pyTruthy raw ||
     (match raw with
      | .str s => poaTokens.contains (pyUpper s)
      | _ => false) then
    .ok ("POA", 0)
  else
    match format_price_body raw with
    | .ok r => .ok r
    | .error (e, d, v) =>
      if e = .valueError ∨ e = .indexError ∨ e = .typeError then .ok (d, v)
      else .error e

/-- Python `int(x)` for the value kinds reaching `format_mileage`. -/
def pyIntCoerce : PyVal → Except PyErr Int
  | .int n => .ok n
  | .bool b => .ok (if b then 1 else 0)
  | .float q => .ok (ratTrunc q)
  | .str s =>
    match pyIntOfString s with
    | some n => .ok n
    | Option.none => .error .valueError
  | _ => .error .typeError

/-- `VehicleListingProcessor.format_mileage` (src/app.py:99-106). -/
def format_mileage (mileage : PyVal) : String :=
  let body : Except PyErr Int :=
    if pyTruthy mileage then pyIntCoerce mileage else .ok 0
  match body with
  | .ok n => String.mk (pyReplaceChar ',' ' ' (pyGroupInt ',' n))
  | .error _ => "0"  -- except (ValueError, TypeError): return "0"

/-- The normalized listing dictionary built by `process_listing`
(src/app.py:136-153). -/
structure Listing where
  id : PyVal
  make : String
  model : String
  year : PyVal
  price_display : String
  price : Rat
  image_urls : PyVal
  variant : PyVal
  body_type : PyVal
  colour : PyVal
  location : PyVal
  mileage : String
  description : String
  created : PyVal
  created_timestamp : Rat
  engine : PyVal

/-- `.title()` on a field value: `AttributeError` unless it is a string. -/
def pyTitleAttr : PyVal → Except PyErr String
  | .str s => .ok (pyTitle s)
  | _ => .error .attributeError

/-- `.replace('\r', '')` on a field value: `AttributeError` unless a string. -/
def pyStripCR : PyVal → Except PyErr String
  | .str s => .ok (String.mk (s.data.filter (fun c => c ≠ '\r')))
  | _ => .error .attributeError

/-- `VehicleListingProcessor.process_listing` (src/app.py:108-153).
`now` is the value `time.time()` would return. -/
def process_listing (now : Rat) (item : PyVal) : Except PyErr Listing := do
  let kvs ← match item with
    | .dict kvs => Except.ok kvs
    | _ => Except.error PyErr.attributeError  -- item.get on a non-dict
  let make ← pyTitleAttr (pyGet kvs "make" (.str "Unknown"))
  let model ← pyTitleAttr (pyGet kvs "model" (.str "Model"))
  let year := pyGet kvs "year" (.str "N/A")
  let location := pyGet kvs "location" (.str "South Africa")
  let colour := pyGet kvs "colour" (.str "Unknown")
  let description ← pyStripCR (pyGet kvs "description" (.str "No description available."))
  let variant := pyGet kvs "variant" (.str "")
  let body_type := pyGet kvs "bodyType" (.str "")
  let engine := pyGet kvs "engine" (.str "N/A")
  let pr ← format_price (pyGet kvs "price" (.str ""))
  let formatted_mileage := format_mileage (pyGet kvs "mileageInKm" (.int 0))
  let image_urls0 := pyGet kvs "imageUrls" (.list [])
  let image_urls :=
    if pyTruthy image_urls0 then image_urls0
    else .list [.str ("https://source.unsplash.com/random/800x600/?car," ++
      pyLower make ++ "+" ++ pyLower model)]
  let created := pyGet kvs "created" (.str "")
  let created_timestamp :=
    if pyTruthy created then parse_iso_datetime created else now
  pure {
    id := pyGet kvs "id" .none
    make := make
    model := model
    year := year
    price_display := pr.1
    price := pr.2
    image_urls := image_urls
    variant := variant
    body_type := body_type
    colour := colour
    location := location
    mileage := formatted_mileage
    description := description
    created := created
    created_timestamp := created_timestamp
    engine := engine }

/-- `CACHE_TIMEOUT` (src/app.py:26), seconds. -/
def CACHE_TIMEOUT : Rat := 1800

/-- Python subscripting `v[k]` with a string key: a dict lookup raising
`KeyError` on a missing key; every non-dict value raises `TypeError`. -/
def pySubscript (v : PyVal) (k : String) : Except PyErr PyVal :=
  match v with
  | .dict kvs =>
    match kvs.find? (fun p => p.1 == k) with
    | some p => .ok p.2
    | Option.none => .error .keyError
  | _ => .error .typeError

/-- Numeric coercion used by `time.time() - cache["timestamp"]`: subtraction
from a float raises `TypeError` unless the operand is numeric. -/
def pyToRat : PyVal → Option Rat
  | .int n => some (n : Rat)
  | .float q => some q
  | .bool b => some (if b then 1 else 0)
  | _ => Option.none

/-- The state of the cache file: `Option.none` when `os.path.exists` is
false, otherwise the result of `json.load` (`Except.error` for a
`json.JSONDecodeError`). -/
def CacheFile := Option (Except Unit PyVal)

/-- `CacheManager.get_listings_from_cache` (src/app.py:159-173).  The
`except (json.JSONDecodeError, KeyError)` handler turns those two failures
into `None`; any other exception (notably `TypeError`) propagates. -/
def get_listings_from_cache (now : Rat) (file : CacheFile) : Except PyErr (Option PyVal) :=
  match file with
  | Option.none => .ok Option.none              -- file does not exist
  | some (.error _) => .ok Option.none          -- json.JSONDecodeError caught
  | some (.ok cache) =>
    match pySubscript cache "timestamp" with
    | .error .keyError => .ok Option.none       -- KeyError caught
    | .error e => .error e
    | .ok ts =>
      match pyToRat ts with
      | Option.none => .error .typeError        -- time.time() - non-number
      | some t =>
        if now - t < CACHE_TIMEOUT then
          match pySubscript cache "data" with
          | .error .keyError => .ok Option.none -- KeyError caught
          | .error e => .error e
          | .ok d => .ok (some d)
        else .ok Option.none                    -- cache expired

/-- Python iteration over the raw listings value (the list comprehension in
src/app.py:251): lists yield their items, strings their characters, dicts
their keys; other values raise `TypeError`. -/
def pyIterate : PyVal → Except PyErr (List PyVal)
  | .list xs => .ok xs
  | .str s => .ok (s.data.map (fun c => .str (String.mk [c])))
  | .dict kvs => .ok (kvs.map (fun p => .str p.1))
  | _ => .error .typeError

/-- `[process_listing(item) for item in items]`: first exception aborts. -/
def processAll (now : Rat) : List PyVal → Except PyErr (List Listing)
  | [] => .ok []
  | item :: rest => do
    let l ← process_listing now item
    let ls ← processAll now rest
    pure (l :: ls)

/-- The comparison of `listings.sort(key=lambda x: x["created_timestamp"],
reverse=True)`: descending on the sort key. -/
def listingLe (a b : Listing) : Bool := b.created_timestamp ≤ a.created_timestamp

/-- The final ordering step (src/app.py:254): a stable descending sort on
`created_timestamp`. -/
def sortListings (ls : List Listing) : List Listing :=
  ls.mergeSort listingLe

/-- Normalization without the final sort: iterate over the raw value and map
every item through `process_listing`, in order. -/
def normalizeOnly (now : Rat) (raw : PyVal) : Except PyErr (List Listing) := do
  let items ← pyIterate raw
  processAll now items

/-- Normalize-and-sort applied to one raw value: iterate, map every item
through `process_listing` and sort by `created_timestamp` descending. -/
def normalizeAndSort (now : Rat) (raw : PyVal) : Except PyErr (List Listing) := do
  let items ← pyIterate raw
  let ls ← processAll now items
  pure (sortListings ls)

/-- The external world of one `fetch_listings` call: the current time, the
cache file contents, and what `APIClient.fetch_listings_from_api` would
return (`Option.none` models every upstream failure path). -/
structure FetchEnv where
  now : Rat
  cacheFile : CacheFile
  apiResult : Option (List PyVal)

/-- Observable outcome of `fetch_listings`: its return value (or the
exception it raises), whether the API was invoked, and the data written
to the cache, if any. -/
structure FetchOutcome where
  result : Except PyErr (List Listing)
  apiCalled : Bool
  cacheWritten : Option (List PyVal)

/-- The raw-data selection of `fetch_listings` (src/app.py:231-248):
given the cache-read result and the would-be API result, the chosen
`raw_listings` value, whether the API was invoked, and the data saved to
the cache.  The `elif cached_data is not None` branch of the source is
kept as the inner re-match on `cached_data`, which at that point is known
to be `None`. -/
def resolve_raw (cached_data : Option PyVal) (api : Option (List PyVal)) :
    PyVal × Bool × Option (List PyVal) :=
  match cached_data with
  | some d => (d, false, Option.none)
  | Option.none =>
    match api with
    | some xs => (.list xs, true, some xs)   -- fetched; save_listings_to_cache
    | Option.none =>
      match cached_data with                  -- elif cached_data is not None
      | some d => (d, true, Option.none)      -- (unreachable here)
      | Option.none => (.list [], true, Option.none)

/-- `fetch_listings` (src/app.py:227-257). -/
def fetch_listings (env : FetchEnv) : FetchOutcome :=
  match get_listings_from_cache env.now env.cacheFile with
  | .error e => ⟨.error e, false, Option.none⟩
  | .ok cached_data =>
    let step := resolve_raw cached_data env.apiResult
    ⟨normalizeAndSort env.now step.1, step.2.1, step.2.2⟩

/-- The listing sequence of `fetch_listings` just before the final sort:
the raw records chosen by `resolve_raw`, normalized in input order. -/
def fetch_normalized (env : FetchEnv) : Except PyErr (List Listing) :=
  match get_listings_from_cache env.now env.cacheFile with
  | .error e => .error e
  | .ok cached_data => normalizeOnly env.now (resolve_raw cached_data env.apiResult).1

/-- Spec-side rendering (§4.2): the decimal digits of a natural number
grouped with single-space thousands separators. -/
def specGroupedNat (n : Nat) : String :=
  String.mk ((group3 ' ' (natDigits n).reverse).reverse)

/-- Spec-side rendering of a possibly negative integer with single-space
thousands separators. -/
def specGroupedInt (i : Int) : String :=
  (if i < 0 then "-" else "") ++ specGroupedNat i.natAbs

/-- Spec-side rendering of a real price as displayed by the zero-fraction
format: the nearest integer (ties to even) grouped with single-space
thousands separators, with a minus sign exactly when the price is
negative (a negative price rounding to zero shows as "-0"). -/
def specGroupedFixed (q : Rat) : String :=
  (if q < 0 then "-" else "") ++ specGroupedNat (roundHalfEven q).natAbs

/-! ## Helper lemmas -/

theorem pyReplaceChar_of_not_mem {a : Char} (b : Char) {l : List Char} (h : a ∉ l) :
    pyReplaceChar a b l = l := by
  induction l with
  | nil => rfl
  | cons c t ih =>
    simp only [List.mem_cons, not_or] at h
    simp [pyReplaceChar] at ih ⊢
    exact ⟨fun hc => absurd hc.symm h.1, ih h.2⟩

theorem pyReplaceChar_append (a b : Char) (l₁ l₂ : List Char) :
    pyReplaceChar a b (l₁ ++ l₂) = pyReplaceChar a b l₁ ++ pyReplaceChar a b l₂ :=
  List.map_append _ _ _

theorem group3F_comma_space {l : List Char} (fuel : Nat) (h : ',' ∉ l) :
    pyReplaceChar ',' ' ' (group3F ',' fuel l) = group3F ' ' fuel l := by
  induction fuel generalizing l with
  | zero => exact pyReplaceChar_of_not_mem _ h
  | succ fuel ih =>
    simp only [group3F]
    split
    · exact pyReplaceChar_of_not_mem _ h
    · rw [pyReplaceChar_append]
      have htake : ',' ∉ l.take 3 := fun hm => h (List.mem_of_mem_take hm)
      have hdrop : ',' ∉ l.drop 3 := fun hm => h (List.mem_of_mem_drop hm)
      rw [pyReplaceChar_of_not_mem _ htake]
      simp only [pyReplaceChar, List.map_cons, if_pos rfl]
      rw [show List.map (fun c => if c = ',' then ' ' else c) (group3F ',' fuel (l.drop 3))
            = pyReplaceChar ',' ' ' (group3F ',' fuel (l.drop 3)) from rfl, ih hdrop]
      simp

theorem mem_group3F {c : Char} {l : List Char} {sep : Char} (fuel : Nat)
    (h : c ∈ group3F sep fuel l) : c ∈ l ∨ c = sep := by
  induction fuel generalizing l with
  | zero => exact Or.inl h
  | succ fuel ih =>
    simp only [group3F] at h
    split at h
    · exact Or.inl h
    · rcases List.mem_append.1 h with h1 | h1
      · exact Or.inl (List.mem_of_mem_take h1)
      · rcases List.mem_cons.1 h1 with h2 | h2
        · exact Or.inr h2
        · rcases ih h2 with h3 | h3
          · exact Or.inl (List.mem_of_mem_drop h3)
          · exact Or.inr h3

theorem natDigitsF_isDigit {c : Char} : ∀ (fuel n : Nat), c ∈ natDigitsF fuel n → c.isDigit
  | 0, _, h => absurd h (List.not_mem_nil c)
  | fuel + 1, n, h => by
    simp only [natDigitsF] at h
    split at h
    · rename_i hn
      rcases List.mem_singleton.1 h with rfl
      revert hn
      have : ∀ m, m < 10 → (Nat.digitChar m).isDigit := by decide
      exact this n
    · rcases List.mem_append.1 h with h1 | h1
      · exact natDigitsF_isDigit fuel (n / 10) h1
      · rcases List.mem_singleton.1 h1 with rfl
        have : ∀ m, m < 10 → (Nat.digitChar m).isDigit := by decide
        exact this _ (Nat.mod_lt _ (by omega))

theorem natDigits_isDigit {c : Char} {n : Nat} (h : c ∈ natDigits n) : c.isDigit :=
  natDigitsF_isDigit _ _ h

theorem replace_group3_reverse {l : List Char} (h : ',' ∉ l) :
    pyReplaceChar ',' ' ' (group3 ',' l).reverse = (group3 ' ' l).reverse := by
  unfold pyReplaceChar
  rw [List.map_reverse]
  exact congrArg List.reverse (group3F_comma_space _ h)

theorem comma_not_mem_natDigits_reverse (n : Nat) : ',' ∉ (natDigits n).reverse := by
  intro hm
  have := natDigits_isDigit (List.mem_reverse.1 hm)
  exact absurd this (by decide)

/-- The display built by the code — `f"{i:,}".replace(',', ' ')` — equals the
spec-side single-space grouping. -/
theorem replace_pyGroupInt (i : Int) :
    pyReplaceChar ',' ' ' (pyGroupInt ',' i) = (specGroupedInt i).data := by
  have key := replace_group3_reverse (comma_not_mem_natDigits_reverse i.natAbs)
  by_cases hi : i < 0
  · simp only [pyGroupInt, specGroupedInt, if_pos hi, specGroupedNat]
    simp only [pyReplaceChar, List.map_cons] at key ⊢
    rw [show (if '-' = ',' then ' ' else '-') = '-' from by decide, key]
    simp [String.data_append]
  · simp only [pyGroupInt, specGroupedInt, if_neg hi, specGroupedNat]
    rw [key]
    simp [String.data_append]

/-- The numeric-branch display of `format_price` — `f"R{v:,.0f}".replace`
— as a string equation against the spec-side grouping. -/
theorem display_numeric_fixed (q : Rat) :
    String.mk (pyReplaceChar ',' ' ' ('R' :: pyGroupNoFrac ',' q)) = "R" ++ specGroupedFixed q := by
  have key := replace_group3_reverse (comma_not_mem_natDigits_reverse (roundHalfEven q).natAbs)
  by_cases hq : q < 0
  · simp only [pyGroupNoFrac, specGroupedFixed, if_pos hq, specGroupedNat]
    simp only [pyReplaceChar, List.map_cons] at key ⊢
    rw [show (if 'R' = ',' then ' ' else 'R') = 'R' from by decide,
      show (if '-' = ',' then ' ' else '-') = '-' from by decide, key]
    apply String.ext
    simp [String.data_append]
  · simp only [pyGroupNoFrac, specGroupedFixed, if_neg hq, specGroupedNat]
    simp only [pyReplaceChar, List.map_cons] at key ⊢
    rw [show (if 'R' = ',' then ' ' else 'R') = 'R' from by decide, key]
    apply String.ext
    simp [String.data_append]

/-- Every error of the `try` body of `format_price` is a `ValueError` raised
before the locals were mutated. -/
theorem format_price_body_error {raw : PyVal} {p : PyErr × String × Rat}
    (h : format_price_body raw = .error p) : p = (.valueError, "POA", 0) := by
  cases raw with
  | str s =>
    simp only [format_price_body] at h
    split at h
    · split at h
      · exact ((Except.error.injEq _ _).mp h).symm
      · exact absurd h (by simp)
    · split at h
      · exact absurd h (by simp)
      · split at h
        · exact ((Except.error.injEq _ _).mp h).symm
        · exact absurd h (by simp)
  | int n => exact absurd h (by simp [format_price_body])
  | float q => exact absurd h (by simp [format_price_body])
  | bool b => exact absurd h (by simp [format_price_body])
  | none => exact absurd h (by simp [format_price_body])
  | list xs => exact absurd h (by simp [format_price_body])
  | dict kvs => exact absurd h (by simp [format_price_body])

/-- `format_price` never raises: the only reachable exception inside the
`try` body is the `ValueError` of `float()`, which the handler catches. -/
theorem format_price_isOk (raw : PyVal) : ∃ r, format_price raw = .ok r := by
  unfold format_price
  split
  · exact ⟨_, rfl⟩
  · rcases hb : format_price_body raw with p | r
    · rcases format_price_body_error hb with rfl
      exact ⟨("POA", 0), by simp [hb]⟩
    · exact ⟨r, by simp [hb]⟩

theorem ebind_ok {ε α β : Type} (a : α) (f : α → Except ε β) :
    (Except.ok a : Except ε α) >>= f = f a := rfl

theorem ebind_error {ε α β : Type} (e : ε) (f : α → Except ε β) :
    (Except.error e : Except ε α) >>= f = Except.error e := rfl

theorem epure_eq {ε α : Type} (a : α) : (pure a : Except ε α) = Except.ok a := rfl

theorem pySplit_ne_nil (c : Char) (l : List Char) : pySplit c l ≠ [] := by
  induction l with
  | nil => simp [pySplit]
  | cons a t ih =>
    simp only [pySplit]
    split
    · simp
    · cases hr : pySplit c t with
      | nil => exact absurd hr ih
      | cons h' t' => simp

theorem mem_of_pySplit_length {c : Char} {l : List Char}
    (h : (pySplit c l).length = 2) : c ∈ l := by
  induction l with
  | nil => simp [pySplit] at h
  | cons a t ih =>
    by_cases hac : a = c
    · exact hac ▸ List.mem_cons_self a t
    · simp only [pySplit, if_neg hac] at h
      cases hr : pySplit c t with
      | nil => exact absurd hr (pySplit_ne_nil c t)
      | cons h' t' =>
        rw [hr] at h
        simp only [List.length_cons] at h
        exact List.mem_cons_of_mem a (ih (by rw [hr]; simp; omega))

theorem mem_pyStrip {c : Char} {l : List Char} (h : c ∈ pyStrip l) : c ∈ l := by
  unfold pyStrip at h
  rw [List.mem_reverse] at h
  have h1 : c ∈ (l.dropWhile pyIsSpace).reverse := (List.dropWhile_sublist _).subset h
  rw [List.mem_reverse] at h1
  exact (List.dropWhile_sublist _).subset h1

/-- A price string with exactly one comma is truthy and is not a POA token,
so the early guard of `format_price` does not fire. -/
theorem one_comma_guard (s : String) (hp : (priceParts s).length = 2) :
    (!pyTruthy (.str s) ||
      (match PyVal.str s with
       | .str s => poaTokens.contains (pyUpper s)
       | _ => false)) = false := by
  have hcm : ',' ∈ s.data := mem_pyStrip (mem_of_pySplit_length hp)
  have hne : s ≠ "" := by
    intro he
    rw [he] at hcm
    simp at hcm
  have hcup : ',' ∈ (pyUpper s).data := by
    simp only [pyUpper]
    exact List.mem_map.2 ⟨',', hcm, by decide⟩
  have htok : pyUpper s ∉ poaTokens := by
    intro hmem
    simp only [poaTokens, List.mem_cons, List.not_mem_nil, or_false] at hmem
    rcases hmem with h | h | h | h <;> rw [h] at hcup <;> exact absurd hcup (by decide)
  simp [pyTruthy, hne, htok]

/-- The comma-branch display of `format_price` — `f"R{...}"` applied to an
already-replaced grouped number — equals the spec-side grouping. -/
theorem display_comma_branch (i : Int) :
    String.mk ('R' :: pyReplaceChar ',' ' ' (pyGroupInt ',' i)) = "R" ++ specGroupedInt i := by
  rw [replace_pyGroupInt]
  apply String.ext
  simp [String.data_append]

theorem specGroupedInt_natCast (n : Nat) : specGroupedInt (n : Int) = specGroupedNat n := by
  simp only [specGroupedInt, Int.natAbs_ofNat]
  rw [if_neg (by omega : ¬ (n : Int) < 0)]
  apply String.ext
  simp [String.data_append]

/-- Rounding an integer changes nothing. -/
theorem roundHalfEven_intCast (n : Int) : roundHalfEven ((n : Rat)) = n := by
  simp only [roundHalfEven, Int.floor_intCast, sub_self]
  norm_num

/-! ## Claim theorems -/

/-- C10: for the numeric price inputs `0` and `0.0` and the boolean `False`,
`format_price` returns `("POA", 0)`: the `if not raw_price_str` emptiness
check treats every falsy value as absent, so a zero price is displayed as
price-on-application rather than "R0". -/
theorem claim_C10_zero_price_is_poa :
    format_price (.int 0) = .ok ("POA", 0)
    ∧ format_price (.float 0) = .ok ("POA", 0)
    ∧ format_price (.bool false) = .ok ("POA", 0) := by
  refine ⟨?_, ?_, ?_⟩ <;> norm_num [format_price, pyTruthy]

/-- C7: `format_price` returns exactly `("POA", 0)` for an absent or blank
price and for every string whose uppercasing is one of the POA tokens, and
it never propagates an exception: every input yields an `ok` result, and
whenever the `try` body raises, the caught handler returns `("POA", 0)`. -/
theorem claim_C7_poa_and_no_exception :
    format_price .none = .ok ("POA", 0)
    ∧ format_price (.str "") = .ok ("POA", 0)
    ∧ (∀ s : String, pyUpper s ∈ poaTokens → format_price (.str s) = .ok ("POA", 0))
    ∧ (∀ v : PyVal, ∃ r, format_price v = .ok r)
    ∧ (∀ (v : PyVal) (p : PyErr × String × Rat),
        format_price_body v = .error p → format_price v = .ok ("POA", 0)) := by
  refine ⟨by norm_num [format_price, pyTruthy], by norm_num [format_price, pyTruthy], ?_, ?_, ?_⟩
  · intro s hs
    simp only [format_price]
    split
    · rfl
    · rename_i hneg
      rw [Bool.or_eq_true] at hneg
      exact absurd (List.elem_eq_true_of_mem hs) (fun hc => hneg (Or.inr hc))
  · exact format_price_isOk
  · intro v p h
    rcases format_price_body_error h with rfl
    unfold format_price
    split
    · rfl
    · simp [h]

/-- Witness for C7 at concrete inputs: the token check is case-insensitive
and the one-comma parse failure of the string "1,x" degrades to POA. -/
theorem claim_C7_witness :
    format_price (.str "on request") = .ok ("POA", 0) :=
  claim_C7_poa_and_no_exception.2.2.1 "on request" (by decide)

/-- C9: whenever the cache read yields a (fresh) snapshot, `fetch_listings`
does not invoke the upstream API and returns exactly the cached records
normalized and sorted. -/
theorem claim_C9_fresh_cache_no_api_call (env : FetchEnv) (d : PyVal)
    (h : get_listings_from_cache env.now env.cacheFile = .ok (some d)) :
    (fetch_listings env).apiCalled = false
    ∧ fetch_listings env = ⟨normalizeAndSort env.now d, false, Option.none⟩ := by
  constructor <;> simp [fetch_listings, h, resolve_raw]

/-- Witness for C9: a fresh cache file whose data is the empty list, with an
upstream that would have returned a record; the API is not consulted. -/
theorem claim_C9_witness :
    (fetch_listings ⟨200, some (.ok (.dict [("timestamp", PyVal.int 100), ("data", PyVal.list [])])),
        some [PyVal.dict []]⟩).apiCalled = false := by
  have h : get_listings_from_cache (200 : Rat)
      (some (.ok (.dict [("timestamp", PyVal.int 100), ("data", PyVal.list [])]))) =
      .ok (some (PyVal.list [])) := by
    have h1 : pySubscript (.dict [("timestamp", PyVal.int 100), ("data", PyVal.list [])])
        "timestamp" = .ok (.int 100) := rfl
    have h2 : pySubscript (.dict [("timestamp", PyVal.int 100), ("data", PyVal.list [])])
        "data" = .ok (.list []) := rfl
    simp only [get_listings_from_cache, h1, h2, pyToRat, CACHE_TIMEOUT]
    norm_num
  exact (claim_C9_fresh_cache_no_api_call _ (PyVal.list []) h).1

/-- C1 (code bug): with an expired cache snapshot on disk holding one
record and a failing upstream fetch, `fetch_listings` returns the empty
sequence, not the stale snapshot's records.  The source's stale-fallback
branch (src/app.py:242-245, with its own log message) is unreachable:
it tests `cached_data is not None` inside the `else` of
`if cached_data is not None`, and `get_listings_from_cache` never returns
expired data in the first place. -/
theorem claim_C1_stale_fallback_unreachable :
    (fetch_listings ⟨1000000,
        some (.ok (.dict [("timestamp", PyVal.int 0),
          ("data", PyVal.list [PyVal.dict [("make", PyVal.str "toyota")]])])),
        Option.none⟩).result = .ok []
    ∧ (fetch_listings ⟨1000000,
        some (.ok (.dict [("timestamp", PyVal.int 0),
          ("data", PyVal.list [PyVal.dict [("make", PyVal.str "toyota")]])])),
        Option.none⟩).apiCalled = true := by
  have h1 : pySubscript (.dict [("timestamp", PyVal.int 0),
      ("data", PyVal.list [PyVal.dict [("make", PyVal.str "toyota")]])])
      "timestamp" = .ok (.int 0) := rfl
  have hc : get_listings_from_cache (1000000 : Rat)
      (some (.ok (.dict [("timestamp", PyVal.int 0),
        ("data", PyVal.list [PyVal.dict [("make", PyVal.str "toyota")]])]))) =
      .ok Option.none := by
    simp only [get_listings_from_cache, h1, pyToRat, CACHE_TIMEOUT]
    norm_num
  constructor <;>
    simp [fetch_listings, hc, resolve_raw, normalizeAndSort, pyIterate, processAll,
      sortListings, List.mergeSort_nil, ebind_ok, epure_eq]

/-- C2 counterexample: a mapping whose present `make` field holds a number
makes `process_listing` raise `AttributeError` (`int` has no `.title`),
refuting the claim that it never raises for fields of unexpected types. -/
theorem claim_C2_counterexample :
    process_listing 0 (.dict [("make", PyVal.int 1)]) = .error .attributeError := rfl

/-- C2 (amended): `process_listing` returns a `NormalizedListing` without
raising for every input mapping — including the empty one — provided the
`make`, `model` and `description` fields, when present, are strings (the
code calls `.title()` / `.replace()` on them unconditionally).  The
returned record's `price` and `created_timestamp` are rationals, hence
total-order sort keys, by the type of `Listing`. -/
theorem claim_C2_normalizer_total (now : Rat) (kvs : List (String × PyVal))
    (hmk : ∃ s, pyGet kvs "make" (.str "Unknown") = .str s)
    (hmd : ∃ s, pyGet kvs "model" (.str "Model") = .str s)
    (hds : ∃ s, pyGet kvs "description" (.str "No description available.") = .str s) :
    ∃ r : Listing, process_listing now (.dict kvs) = .ok r := by
  obtain ⟨s1, h1⟩ := hmk
  obtain ⟨s2, h2⟩ := hmd
  obtain ⟨s3, h3⟩ := hds
  obtain ⟨pr, hpr⟩ := format_price_isOk (pyGet kvs "price" (.str ""))
  exact ⟨_, by
    simp only [process_listing, h1, h2, h3, hpr, pyTitleAttr, pyStripCR, ebind_ok, epure_eq]
    rfl⟩

/-- Witness for C2 on the empty mapping (all defaults) and on a make-only
mapping. -/
theorem claim_C2_witness :
    (∃ r : Listing, process_listing 0 (.dict []) = .ok r)
    ∧ (∃ r : Listing, process_listing 7 (.dict [("make", PyVal.str "bmw")]) = .ok r) :=
  ⟨claim_C2_normalizer_total 0 [] ⟨"Unknown", rfl⟩ ⟨"Model", rfl⟩
      ⟨"No description available.", rfl⟩,
    claim_C2_normalizer_total 7 [("make", PyVal.str "bmw")] ⟨"bmw", rfl⟩ ⟨"Model", rfl⟩
      ⟨"No description available.", rfl⟩⟩

/-- C3 counterexample: a cache file holding valid JSON whose top level is a
list (a "corrupted store" in the claim's sense) makes
`get_listings_from_cache` raise `TypeError` — `cache["timestamp"]` on a
list is not caught by `except (json.JSONDecodeError, KeyError)` — refuting
"never lets an error propagate". -/
theorem claim_C3_counterexample :
    get_listings_from_cache 0 (some (.ok (.list []))) = .error .typeError := rfl

/-- C3 (amended): `get_listings_from_cache` returns the cached data exactly
when the file exists, parses as a mapping with a numeric timestamp
satisfying `now - timestamp < 1800` and a data key; it returns absent for a
missing file, a JSON parse failure, a missing timestamp or data key
(`KeyError` is caught), or an expired snapshot; but a parsed non-mapping
top level, or a non-numeric timestamp, raises `TypeError`, which
propagates to the caller. -/
theorem claim_C3_cache_read_characterization (now : Rat) (file : CacheFile) :
    (file = Option.none → get_listings_from_cache now file = .ok Option.none)
    ∧ (∀ e, file = some (.error e) → get_listings_from_cache now file = .ok Option.none)
    ∧ (∀ kvs ts t d, file = some (.ok (.dict kvs)) →
        pySubscript (.dict kvs) "timestamp" = .ok ts →
        pyToRat ts = some t →
        now - t < CACHE_TIMEOUT →
        pySubscript (.dict kvs) "data" = .ok d →
        get_listings_from_cache now file = .ok (some d))
    ∧ (∀ kvs ts t, file = some (.ok (.dict kvs)) →
        pySubscript (.dict kvs) "timestamp" = .ok ts →
        pyToRat ts = some t →
        ¬ now - t < CACHE_TIMEOUT →
        get_listings_from_cache now file = .ok Option.none)
    ∧ (∀ kvs, file = some (.ok (.dict kvs)) →
        pySubscript (.dict kvs) "timestamp" = .error .keyError →
        get_listings_from_cache now file = .ok Option.none)
    ∧ (∀ kvs ts t, file = some (.ok (.dict kvs)) →
        pySubscript (.dict kvs) "timestamp" = .ok ts →
        pyToRat ts = some t →
        now - t < CACHE_TIMEOUT →
        pySubscript (.dict kvs) "data" = .error .keyError →
        get_listings_from_cache now file = .ok Option.none)
    ∧ (∀ v, file = some (.ok v) → (∀ kvs, v ≠ .dict kvs) →
        get_listings_from_cache now file = .error .typeError)
    ∧ (∀ kvs ts, file = some (.ok (.dict kvs)) →
        pySubscript (.dict kvs) "timestamp" = .ok ts →
        pyToRat ts = Option.none →
        get_listings_from_cache now file = .error .typeError) := by
  refine ⟨?_, ?_, ?_, ?_, ?_, ?_, ?_, ?_⟩
  · rintro rfl; rfl
  · rintro e rfl; rfl
  · rintro kvs ts t d rfl h1 h2 h3 h4
    simp [get_listings_from_cache, h1, h2, h3, h4]
  · rintro kvs ts t rfl h1 h2 h3
    simp [get_listings_from_cache, h1, h2, h3]
  · rintro kvs rfl h1
    simp [get_listings_from_cache, h1]
  · rintro kvs ts t rfl h1 h2 h3 h4
    simp [get_listings_from_cache, h1, h2, h3, h4]
  · rintro v rfl hv
    cases v with
    | dict kvs => exact absurd rfl (hv kvs)
    | none => rfl
    | bool b => rfl
    | int n => rfl
    | float q => rfl
    | str s => rfl
    | list xs => rfl
  · rintro kvs ts rfl h1 h2
    simp [get_listings_from_cache, h1, h2]

/-- Witness for C3 at a fresh, well-formed cache file. -/
theorem claim_C3_witness :
    get_listings_from_cache 200
      (some (.ok (.dict [("timestamp", PyVal.int 100), ("data", PyVal.list [])]))) =
      .ok (some (PyVal.list [])) :=
  (claim_C3_cache_read_characterization 200 _).2.2.1 _ (PyVal.int 100) (((100 : Int) : Rat))
    (PyVal.list []) rfl rfl rfl (by norm_num [CACHE_TIMEOUT]) rfl

/-- C4 counterexample: the display of `f"{x:,.0f}"` rounds (half to even)
rather than truncating: at the numeric price `1.5` the code shows "R2",
not "R1" — the "R" + integer-part of the claim.  And at the numeric price
`0` it shows "POA", not "R0": the falsy-guard fires before the numeric
branch is reached. -/
theorem claim_C4_counterexample :
    (format_price (.float ((3 : Rat)/2)) = .ok ("R2", (3 : Rat)/2)
      ∧ ("R2" : String) ≠ "R" ++ specGroupedInt (ratTrunc ((3 : Rat)/2)))
    ∧ (format_price (.int 0) = .ok ("POA", 0) ∧ ("POA" : String) ≠ "R0") := by
  refine ⟨?_, by norm_num [format_price, pyTruthy], by decide⟩
  have hf : ⌊(3 : Rat)/2⌋ = 1 := by
    rw [Int.floor_eq_iff]
    norm_num
  have h2 : roundHalfEven ((3 : Rat)/2) = 2 := by
    simp only [roundHalfEven, hf]
    norm_num
  have ht : ratTrunc ((3 : Rat)/2) = 1 := by
    simp only [ratTrunc, hf, if_pos (by norm_num : (0 : Rat) ≤ 3/2)]
  constructor
  · have hguard : (!pyTruthy (.float ((3 : Rat)/2)) ||
        (match PyVal.float ((3 : Rat)/2) with
         | .str s => poaTokens.contains (pyUpper s)
         | _ => false)) = false := by
      simp [pyTruthy]
    have e : specGroupedFixed ((3 : Rat)/2) = "2" := by
      simp only [specGroupedFixed, h2]
      rw [if_neg (by norm_num : ¬ ((3 : Rat)/2 < 0))]
      decide
    simp only [format_price, hguard, Bool.false_eq_true, if_false, format_price_body,
      display_numeric_fixed, e]
    rfl
  · rw [ht]
    decide

/-- C4 (amended): for every nonzero numeric price (integer or real),
`format_price` returns the number itself as the sort value, and a display
equal to "R" followed by the number rounded to the nearest integer (ties
to even) grouped with single-space thousands separators, carrying a minus
sign exactly when the price is negative — Python's `f"{x:,.0f}"` keeps the
signed zero, so a negative price rounding to zero displays as "R-0".
(A zero price is caught by the falsy-guard and yields POA — claim C10.) -/
theorem claim_C4_numeric_prices :
    (∀ n : Int, n ≠ 0 →
        format_price (.int n) = .ok ("R" ++ specGroupedFixed ((n : Rat)), (n : Rat)))
    ∧ (∀ q : Rat, q ≠ 0 →
        format_price (.float q) = .ok ("R" ++ specGroupedFixed q, q)) := by
  constructor
  · intro n hn
    have hguard : (!pyTruthy (.int n) ||
        (match PyVal.int n with
         | .str s => poaTokens.contains (pyUpper s)
         | _ => false)) = false := by
      simp [pyTruthy, hn]
    simp only [format_price, hguard, Bool.false_eq_true, if_false, format_price_body,
      display_numeric_fixed]
  · intro q hq
    have hguard : (!pyTruthy (.float q) ||
        (match PyVal.float q with
         | .str s => poaTokens.contains (pyUpper s)
         | _ => false)) = false := by
      simp [pyTruthy, hq]
    simp only [format_price, hguard, Bool.false_eq_true, if_false, format_price_body,
      display_numeric_fixed]

/-- Witness for C4 at the integer price 1234567 and at the negative real
price -0.25, whose display keeps Python's signed zero: "R-0". -/
theorem claim_C4_witness :
    format_price (.int 1234567) = .ok ("R1 234 567", ((1234567 : Int) : Rat))
    ∧ format_price (.float (-(1 : Rat)/4)) = .ok ("R-0", -(1 : Rat)/4) := by
  constructor
  · have h := claim_C4_numeric_prices.1 1234567 (by norm_num)
    have e : ("R" ++ specGroupedFixed (((1234567 : Int)) : Rat) : String) = "R1 234 567" := by
      have hr : roundHalfEven (((1234567 : Int)) : Rat) = 1234567 := roundHalfEven_intCast _
      simp only [specGroupedFixed, hr]
      rw [if_neg (by norm_num : ¬ ((((1234567 : Int)) : Rat) < 0))]
      decide
    rw [h, e]
  · have h := claim_C4_numeric_prices.2 (-(1 : Rat)/4) (by norm_num)
    have hf : ⌊-(1 : Rat)/4⌋ = -1 := by
      rw [Int.floor_eq_iff]
      norm_num
    have hr : roundHalfEven (-(1 : Rat)/4) = 0 := by
      simp only [roundHalfEven, hf]
      norm_num
    have e : ("R" ++ specGroupedFixed (-(1 : Rat)/4) : String) = "R-0" := by
      simp only [specGroupedFixed, hr]
      rw [if_pos (by norm_num : (-(1 : Rat)/4) < 0)]
      decide
    rw [h, e]

/-- C5 counterexample: "1,x" contains exactly one comma, but its fractional
part "x" does not form a real number: `float("1.x")` raises, the handler
degrades to `("POA", 0)`, and the display is not "R1" as the claim's
rule predicts. -/
theorem claim_C5_counterexample :
    format_price (.str "1,x") = .ok ("POA", 0) ∧ ("POA" : String) ≠ "R1" := by
  constructor
  · have hguard := one_comma_guard "1,x" (by decide)
    simp only [format_price, hguard, Bool.false_eq_true, if_false, format_price_body,
      show pyFloat (String.mk (priceMajor "1,x" ++ '.' :: priceMinor "1,x")) = Option.none
        from rfl,
      show (priceParts "1,x").length = 2 from by decide]
    simp
  · decide

/-- C5 (amended): for a price string with exactly one comma, the code strips
non-digits from the left-of-comma part (defaulting to "0"), takes the
first two right-of-comma characters as the fractional part, and — when
"major.fractional" parses as a Python float literal — returns that number
as the sort value with display "R" + major grouped by single spaces;
when it does not parse, the ValueError degrades the result to ("POA", 0).
In particular format_price("18499000,00") = ("R18 499 000", 18499000.0)
(see the witness). -/
theorem claim_C5_one_comma_price (s : String) (hp : (priceParts s).length = 2) :
    (∀ q : Rat, pyFloat (String.mk (priceMajor s ++ '.' :: priceMinor s)) = some q →
        format_price (.str s) = .ok ("R" ++ specGroupedNat (digitsVal (priceMajor s)), q))
    ∧ (pyFloat (String.mk (priceMajor s ++ '.' :: priceMinor s)) = Option.none →
        format_price (.str s) = .ok ("POA", 0)) := by
  have hguard := one_comma_guard s hp
  constructor
  · intro q hq
    simp only [format_price, hguard, Bool.false_eq_true, if_false, format_price_body,
      hp, if_pos, hq]
    rw [display_comma_branch, specGroupedInt_natCast]
  · intro hq
    simp only [format_price, hguard, Bool.false_eq_true, if_false, format_price_body,
      hp, if_pos, hq]
    simp

/-- Witness for C5 at the spec's own example "18499000,00", and at "1,_5",
where the underscore makes `float("1._5")` raise (PEP 515 allows
underscores only between digits) and the result degrades to POA. -/
theorem claim_C5_witness :
    format_price (.str "18499000,00") = .ok ("R18 499 000", (18499000 : Rat))
    ∧ format_price (.str "1,_5") = .ok ("POA", 0) := by
  constructor
  · have hp : (priceParts "18499000,00").length = 2 := by decide
    have hq : pyFloat (String.mk (priceMajor "18499000,00" ++ '.' :: priceMinor "18499000,00")) =
        some (18499000 : Rat) := by
      rw [show priceMajor "18499000,00" = "18499000".data from by decide,
        show priceMinor "18499000,00" = "00".data from by decide]
      simp +decide [pyFloat, pyStrip, pySign, digitsU, digitsUGo, pyIsSpace, pyFloatExp,
        show digitsVal ['1','8','4','9','9','0','0','0'] = 18499000 from by decide,
        show digitsVal ['0','0'] = 0 from by decide]
    have h := (claim_C5_one_comma_price "18499000,00" hp).1 (18499000 : Rat) hq
    have e : ("R" ++ specGroupedNat (digitsVal (priceMajor "18499000,00")) : String) =
        "R18 499 000" := by decide
    rw [h, e]
  · have hp : (priceParts "1,_5").length = 2 := by decide
    have hq : pyFloat (String.mk (priceMajor "1,_5" ++ '.' :: priceMinor "1,_5")) =
        Option.none := rfl
    exact (claim_C5_one_comma_price "1,_5" hp).2 hq

theorem listingLe_trans (a b c : Listing) : listingLe a b → listingLe b c → listingLe a c := by
  simp only [listingLe, decide_eq_true_eq]
  exact fun hab hbc => le_trans hbc hab

theorem listingLe_total (a b : Listing) : listingLe a b || listingLe b a := by
  simp only [listingLe, Bool.or_eq_true, decide_eq_true_eq]
  exact (le_total b.created_timestamp a.created_timestamp)

/-- The sorted sequence is non-increasing in `created_timestamp`. -/
theorem sortListings_pairwise (l : List Listing) :
    (sortListings l).Pairwise (fun a b => b.created_timestamp ≤ a.created_timestamp) := by
  have h := List.sorted_mergeSort listingLe_trans listingLe_total l
  exact h.imp (fun hb => by simpa [listingLe] using hb)

/-- Stability: for every key value, the sorted sequence lists the records
carrying that key in exactly their input order. -/
theorem sortListings_filter (l : List Listing) (t : Rat) :
    (sortListings l).filter (fun x => x.created_timestamp == t)
      = l.filter (fun x => x.created_timestamp == t) := by
  have hpair : (l.filter (fun x => x.created_timestamp == t)).Pairwise
      (fun a b => listingLe a b = true) := by
    apply List.pairwise_of_forall_mem_list
    intro a ha b hb
    have ha' := List.of_mem_filter ha
    have hb' := List.of_mem_filter hb
    rw [beq_iff_eq] at ha' hb'
    simp [listingLe, ha', hb']
  have hsub : List.Sublist (l.filter (fun x => x.created_timestamp == t))
      (List.mergeSort l listingLe) :=
    List.sublist_mergeSort listingLe_trans listingLe_total hpair (List.filter_sublist l)
  have hff : (l.filter (fun x => x.created_timestamp == t)).filter
      (fun x => x.created_timestamp == t) = l.filter (fun x => x.created_timestamp == t) :=
    List.filter_eq_self.mpr (fun a ha => (List.mem_filter.mp ha).2)
  have hsub2 : List.Sublist (l.filter (fun x => x.created_timestamp == t))
      ((List.mergeSort l listingLe).filter (fun x => x.created_timestamp == t)) := by
    have h := hsub.filter (fun x => x.created_timestamp == t)
    rwa [hff] at h
  have hlen : ((List.mergeSort l listingLe).filter (fun x => x.created_timestamp == t)).length
      = (l.filter (fun x => x.created_timestamp == t)).length :=
    ((List.mergeSort_perm l listingLe).filter _).length_eq
  exact (hsub2.eq_of_length hlen.symm).symm

/-- C6: the sequence returned by `fetch_listings` is the stable descending
sort of the normalized input sequence: it is non-increasing in
`created_timestamp`, and records with equal `created_timestamp` keep the
relative order they had in the (order-preservingly normalized) input. -/
theorem claim_C6_sort_stable_descending (env : FetchEnv) (l0 : List Listing)
    (h : fetch_normalized env = .ok l0) :
    (fetch_listings env).result = .ok (sortListings l0)
    ∧ (sortListings l0).Pairwise (fun a b => b.created_timestamp ≤ a.created_timestamp)
    ∧ ∀ t : Rat, (sortListings l0).filter (fun x => x.created_timestamp == t)
        = l0.filter (fun x => x.created_timestamp == t) := by
  refine ⟨?_, sortListings_pairwise l0, fun t => sortListings_filter l0 t⟩
  rcases hc : get_listings_from_cache env.now env.cacheFile with e | cached
  · simp only [fetch_normalized, hc] at h
    exact absurd h (by simp)
  · simp only [fetch_normalized, hc, normalizeOnly] at h
    rcases hi : pyIterate (resolve_raw cached env.apiResult).1 with e | items
    · rw [hi, ebind_error] at h
      exact absurd h (by simp)
    · rw [hi, ebind_ok] at h
      simp only [fetch_listings, hc]
      simp [normalizeAndSort, hi, ebind_ok, h, epure_eq]

/-- Witness for C6: a cache miss with an upstream returning zero listings. -/
theorem claim_C6_witness :
    (fetch_listings ⟨0, Option.none, some []⟩).result = .ok (sortListings []) :=
  (claim_C6_sort_stable_descending ⟨0, Option.none, some []⟩ [] rfl).1

end App
